import Mathlib

/-!
Shallow embedding of the core of the krakow-tram-lines-simulator repository:

* `src/src/data_loader.py` — `parse_time_string` (time-string parsing),
* `src/src/models.py` — `StopTime`, `Trip`, `TramBlock` and their methods,
* `src/src/visualizer.py` — `interpolate_position`, `get_tram_position_at_time`,
* `src/src/utils.py` — `route_segment_coords`.

Python floats are modelled as `ℚ` (all arithmetic the core performs on
coordinates is exact field arithmetic), Python ints as `Int`, and the
`datetime.time` value as a record of hour/minute/second naturals.  Fallible
Python code (raising `ValueError` / `IndexError`) is modelled with `Option`.
-/

namespace TramSim

/-- Model of Python's `datetime.time`: the `time(hour, minute, second)`
constructor only accepts `0 ≤ hour ≤ 23`, `0 ≤ minute ≤ 59`,
`0 ≤ second ≤ 59` (see `mkTime`), so the stored fields are naturals. -/
structure PyTime where
  hour : Nat
  minute : Nat
  second : Nat
deriving DecidableEq, Inhabited

/-- Model of the `datetime.time(hour, minute, second)` constructor: validates
the ranges and raises `ValueError` (here: `none`) otherwise. -/
def mkTime (hour minute second : Int) : Option PyTime :=
  if 0 ≤ hour ∧ hour ≤ 23 ∧ 0 ≤ minute ∧ minute ≤ 59 ∧ 0 ≤ second ∧ second ≤ 59 then
    some ⟨hour.toNat, minute.toNat, second.toNat⟩
  else
    none

/-- The ASCII characters CPython's `int()` (and `str.isspace`) treat as
whitespace and strip from both ends of the literal: TAB through CR
(0x09–0x0D), the separator controls 0x1C–0x1F, and SPACE (0x20). -/
def isPySpace (c : Char) : Bool :=
  (9 ≤ c.toNat && c.toNat ≤ 13) || (28 ≤ c.toNat && c.toNat ≤ 31) || c.toNat = 32

/-- Strip the surrounding whitespace `int()` ignores. -/
def pyStrip (l : List Char) : List Char :=
  ((l.dropWhile isPySpace).reverse.dropWhile isPySpace).reverse

/-- The digit part of a Python integer literal after its first digit: ASCII
digits, optionally separated by SINGLE underscores (an underscore must sit
between two digits, so a trailing or doubled underscore fails). -/
def pyDigitsRest (acc : Nat) : List Char → Option Nat
  | [] => some acc
  | '_' :: c :: rest =>
    if c.isDigit then pyDigitsRest (acc * 10 + (c.toNat - 48)) rest else none
  | ['_'] => none
  | c :: rest =>
    if c.isDigit then pyDigitsRest (acc * 10 + (c.toNat - 48)) rest else none

/-- One or more ASCII digits with optional single underscores between them
(a leading underscore fails), parsed to a natural number. -/
def pyDigitsU : List Char → Option Nat
  | c :: rest => if c.isDigit then pyDigitsRest (c.toNat - 48) rest else none
  | [] => none

/-- Model of Python's `int(s)` for strings of ASCII characters, on which it
is exactly CPython's behaviour: surrounding whitespace is stripped, then an
optional single sign, then one or more decimal digits with single
underscores allowed between digits.  (CPython additionally accepts non-ASCII
decimal digits and non-ASCII whitespace; those code points are outside this
model, and the theorems that quantify over input strings restrict themselves
to ASCII inputs via `isAsciiChar`.) -/
def pyInt (s : String) : Option Int :=
  match pyStrip s.data with
  | '-' :: rest => (pyDigitsU rest).map (fun n => -(n : Int))
  | '+' :: rest => (pyDigitsU rest).map (fun n => (n : Int))
  | l => (pyDigitsU l).map (fun n => (n : Int))

/-- Python's `str.split(sep)` for a one-character separator, on the
character list: splitting never drops fields, so `""` gives `[""]` and
`":"` gives `["", ""]`. -/
def splitChar (sep : Char) : List Char → List (List Char)
  | [] => [[]]
  | c :: rest =>
    match splitChar sep rest with
    | [] => if c = sep then [[], []] else [[c]]
    | h :: t => if c = sep then [] :: h :: t else (c :: h) :: t

/-- `time_str.split(":")` as it appears in `parse_time_string`. -/
def pySplit (s : String) : List String :=
  (splitChar ':' s.data).map (fun l => String.mk l)

/-- `parse_time_string` from `src/src/data_loader.py` (lines 91–102):
splits on `":"`, converts fields 0, 1, 2 with `int` (an `IndexError` when
fewer than three fields and a `ValueError` on a non-numeric field are both
modelled as `none`; fields beyond the third are ignored), reduces hours
`≥ 24` modulo 24, and builds a `datetime.time`. -/
def parse_time_string (time_str : String) : Option PyTime :=
  let parts := pySplit time_str
  match parts.get? 0, parts.get? 1, parts.get? 2 with
  | some p0, some p1, some p2 =>
    match pyInt p0, pyInt p1, pyInt p2 with
    | some hour, some minute, some second =>
      let hour := if 24 ≤ hour then hour % 24 else hour
      mkTime hour minute second
    | _, _, _ => none
  | _, _, _ => none

/-- `StopTime` from `src/src/models.py` (lines 34–50). -/
structure StopTime where
  stop_name : String
  stop_lat : ℚ
  stop_lon : ℚ
  stop_num : String
  departure_time : PyTime
  departure_time_str : String
  stop_sequence : Int
  trip_id : String
  trip_num : Int
deriving DecidableEq, Inhabited

/-- `StopTime.to_minutes`: departure time in minutes since midnight. -/
def StopTime.to_minutes (st : StopTime) : Nat :=
  st.departure_time.hour * 60 + st.departure_time.minute

/-- `Trip` from `src/src/models.py` (lines 53–91). -/
structure Trip where
  trip_id : String
  trip_num : Int
  route_short_name : String
  trip_headsign : String
  shape : List (ℚ × ℚ)
  stop_times : List StopTime
deriving DecidableEq, Inhabited

/-- `Trip.get_start_time_minutes`:
`self.stop_times[0].to_minutes() if self.stop_times else 0`. -/
def Trip.get_start_time_minutes (trip : Trip) : Nat :=
  match trip.stop_times with
  | [] => 0
  | st :: _ => st.to_minutes

/-- `Trip.get_end_time_minutes`:
`self.stop_times[-1].to_minutes() if self.stop_times else 0`. -/
def Trip.get_end_time_minutes (trip : Trip) : Nat :=
  match trip.stop_times.getLast? with
  | none => 0
  | some st => st.to_minutes

/-- `Trip.is_active_at`:
`self.get_start_time_minutes() <= time_minutes <= self.get_end_time_minutes()`. -/
def Trip.is_active_at (trip : Trip) (time_minutes : Int) : Bool :=
  ((trip.get_start_time_minutes : Int) ≤ time_minutes) &&
    (time_minutes ≤ (trip.get_end_time_minutes : Int))

/-- The scan inside `Trip.get_current_segment`: iterate over consecutive
`StopTime` pairs in list order and return the first pair
`(current_stop, next_stop)` with
`current_stop.to_minutes() <= time_minutes <= next_stop.to_minutes()`;
`none` when the loop falls through. -/
def findSegment (time_minutes : Int) : List StopTime → Option (StopTime × StopTime)
  | current_stop :: next_stop :: rest =>
    if ((current_stop.to_minutes : Int) ≤ time_minutes) ∧
        (time_minutes ≤ (next_stop.to_minutes : Int)) then
      some (current_stop, next_stop)
    else
      findSegment time_minutes (next_stop :: rest)
  | _ => none

/-- `Trip.get_current_segment` from `src/src/models.py` (lines 76–91):
`None` when the trip is not active, otherwise the first bracketing
consecutive pair, `None` when no pair brackets. -/
def Trip.get_current_segment (trip : Trip) (time_minutes : Int) :
    Option (StopTime × StopTime) :=
  if trip.is_active_at time_minutes then
    findSegment time_minutes trip.stop_times
  else
    none

/-- `TramBlock` from `src/src/models.py` (lines 94–129). -/
structure TramBlock where
  block_id : String
  line_number : String
  service_type : String
  trips : List Trip
deriving DecidableEq, Inhabited

/-- `TramBlock.get_active_trip`: first trip in stored order active at the
given time. -/
def TramBlock.get_active_trip (block : TramBlock) (time_minutes : Int) : Option Trip :=
  block.trips.find? (fun trip => trip.is_active_at time_minutes)

/-- `TramBlock.get_status_at_time` from `src/src/models.py` (lines 113–129). -/
def TramBlock.get_status_at_time (block : TramBlock) (time_minutes : Int) : String :=
  match block.get_active_trip time_minutes with
  | some _ => "IN_TRANSIT"
  | none =>
    match block.trips with
    | [] => "IN_DEPOT"
    | first :: rest =>
      let last := (first :: rest).getLast (List.cons_ne_nil first rest)
      if (first.get_start_time_minutes : Int) ≤ time_minutes ∧
          time_minutes ≤ (last.get_end_time_minutes : Int) then
        "AT_TERMINUS"
      else
        "IN_DEPOT"

/-- `interpolate_position` from `src/src/visualizer.py` (lines 71–90). -/
def interpolate_position (start_pos end_pos : ℚ × ℚ)
    (start_time_minutes end_time_minutes current_time_minutes : Int) : ℚ × ℚ :=
  if end_time_minutes = start_time_minutes then
    start_pos
  else
    let progress : ℚ :=
      ((current_time_minutes : ℚ) - (start_time_minutes : ℚ)) /
        ((end_time_minutes : ℚ) - (start_time_minutes : ℚ))
    let progress := max 0 (min 1 progress)
    (start_pos.1 + (end_pos.1 - start_pos.1) * progress,
     start_pos.2 + (end_pos.2 - start_pos.2) * progress)

/-- `get_tram_position_at_time` from `src/src/visualizer.py` (lines 93–132).
The terminus branch (`for trip in block.trips: if trip.get_end_time_minutes()
<= time_minutes: last_trip = trip`) keeps the LAST qualifying trip in stored
order; `if last_trip and last_trip.stop_times` is Python truthiness on the
optional trip and its stop list. -/
def get_tram_position_at_time (block : TramBlock) (time_minutes : Int) :
    Option (ℚ × ℚ) :=
  let status := block.get_status_at_time time_minutes
  if status = "IN_DEPOT" then
    none
  else
    match block.get_active_trip time_minutes with
    | none =>
      let last_trip := block.trips.foldl
        (fun acc trip =>
          if (trip.get_end_time_minutes : Int) ≤ time_minutes then some trip else acc)
        none
      match last_trip with
      | some ltrip =>
        match ltrip.stop_times.getLast? with
        | some last_stop => some (last_stop.stop_lat, last_stop.stop_lon)
        | none => none
      | none => none
    | some active_trip =>
      match active_trip.get_current_segment time_minutes with
      | none => none
      | some (prev_stop, next_stop) =>
        some (interpolate_position
          (prev_stop.stop_lat, prev_stop.stop_lon)
          (next_stop.stop_lat, next_stop.stop_lon)
          (prev_stop.to_minutes : Int) (next_stop.to_minutes : Int) time_minutes)

/-- Squared planar Euclidean distance.  `src/src/utils.py` uses
`math.dist`, i.e. the square root of this value; the minimisations below use
the squared distance as the comparison key, which selects exactly the same
indices because the square root is strictly monotone on nonnegatives (the
theorems about `nearestIdx` restate minimality for the rooted distance). -/
def distSq (p q : ℚ × ℚ) : ℚ :=
  (p.1 - q.1) ^ 2 + (p.2 - q.2) ^ 2

/-- Model of `min(range(n), key=f)`: the first index attaining the minimal
key (Python's `min` keeps the earliest element on ties, replacing the current
best only on a strictly smaller key).  For `n = 0` CPython raises
`ValueError`; callers guard that case. -/
def argminFirst (f : Nat → ℚ) (n : Nat) : Nat :=
  (List.range n).foldl (fun best i => if f i < f best then i else best) 0

/-- `min(range(len(route)), key=lambda i: dist(p, route[i]))` from
`src/src/utils.py`, with the squared distance as the (order-equivalent)
key. -/
def nearestIdx (p : ℚ × ℚ) (route : List (ℚ × ℚ)) : Nat :=
  argminFirst (fun i => distSq p (route.getD i (0, 0))) route.length

/-- CPython list slice `l[start:stop:-1]` for the arguments
`route_segment_coords` produces: `start < l.length` and `stop ≥ -1 - l.length`.
A negative `stop` is first shifted by the length (clamped at `-1`); the slice
then walks indices `start, start - 1, …, stop + 1`. -/
def pyRevSlice {α : Type} (l : List α) (d : α) (start : Nat) (stop : Int) : List α :=
  let stopN : Int :=
    if stop < 0 then
      (if stop + l.length < 0 then -1 else stop + l.length)
    else stop
  if stopN < (start : Int) then
    ((List.range' ((stopN + 1).toNat) (((start : Int) - stopN).toNat)).reverse).map
      (fun i => l.getD i d)
  else
    []

/-- `route_segment_coords` from `src/src/utils.py` (lines 5–14):
nearest vertex indices for the two query points, then the forward slice
`route[start:end + 1]` when `start <= end` and the reverse slice
`route[start:end - 1:-1]` otherwise.  An empty `route` makes CPython's
`min()` raise `ValueError`, modelled as `none`. -/
def route_segment_coords (s_start s_end : ℚ × ℚ) (route : List (ℚ × ℚ)) :
    Option (List (ℚ × ℚ)) :=
  match route with
  | [] => none
  | _ :: _ =>
    let start := nearestIdx s_start route
    let e := nearestIdx s_end route
    if start ≤ e then
      some ((route.drop start).take (e + 1 - start))
    else
      some (pyRevSlice route (0, 0) start ((e : Int) - 1))

/-! Concrete fixtures used by witnesses and counterexamples. -/

/-- A `StopTime` fixture with the given coordinates and departure time. -/
def mkStop (lat lon : ℚ) (h m : Nat) : StopTime :=
  ⟨"", lat, lon, "", ⟨h, m, 0⟩, "", 0, "", 0⟩

/-- A `Trip` fixture with the given stop times. -/
def mkTrip (sts : List StopTime) : Trip :=
  ⟨"", 0, "", "", [], sts⟩

/-- A `TramBlock` fixture with the given trips. -/
def mkBlock (trips : List Trip) : TramBlock :=
  ⟨"", "", "", trips⟩

/-- Claim C1 (evaluation at the failing input): the code maps `"25:00:00"`
to hour 1 (wrapping `25 % 24`), so its minutes-since-midnight value is 60,
strictly BELOW the 1439 of `"23:59:00"`; extended-range ordering is not
preserved, contradicting the spec's policy that hours 24+ sort after hour 23
of the same service day. -/
theorem c1_hour_wrap_breaks_ordering :
    parse_time_string "25:00:00" = some ⟨1, 0, 0⟩ ∧
    parse_time_string "23:59:00" = some ⟨23, 59, 0⟩ ∧
    (mkStop 0 0 1 0).to_minutes = 60 ∧
    (mkStop 0 0 23 59).to_minutes = 1439 ∧
    (mkStop 0 0 1 0).to_minutes < (mkStop 0 0 23 59).to_minutes := by
  refine ⟨by decide, by decide, by decide, by decide, by decide⟩

/-- Claim C7 (counterexample): a trip with zero `StopTime`s defaults both its
start and end minute to 0, so `is_active_at 0` is `true`, refuting
"`isActiveAt(trip, t)` returns false for every time t". -/
theorem c7_counterexample :
    (mkTrip []).stop_times.length = 0 ∧ (mkTrip []).is_active_at 0 = true := by
  refine ⟨by decide, by decide⟩

/-- Claim C7 (amended): for a trip with zero or one `StopTime`s,
`get_current_segment` returns `none` for every time (and neither operation
raises — both are total); `is_active_at t`, however, is not always false: it
is true exactly at the single minute `t = get_start_time_minutes` (0 for an
empty trip, the lone stop's minute for a one-stop trip). -/
theorem c7_degenerate_trips (trip : Trip) (t : Int)
    (hlen : trip.stop_times.length ≤ 1) :
    trip.get_current_segment t = none ∧
    (trip.is_active_at t = true ↔ t = (trip.get_start_time_minutes : Int)) := by
  rcases hst : trip.stop_times with _ | ⟨st, _ | ⟨st2, rest⟩⟩
  · constructor
    · simp [Trip.get_current_segment, findSegment, hst]
    · simp [Trip.is_active_at, Trip.get_start_time_minutes, Trip.get_end_time_minutes, hst]
      omega
  · constructor
    · simp [Trip.get_current_segment, findSegment, hst]
    · simp [Trip.is_active_at, Trip.get_start_time_minutes, Trip.get_end_time_minutes, hst]
      omega
  · rw [hst] at hlen
    simp at hlen

/-- Witness for C7's amended theorem at a concrete one-stop trip. -/
theorem c7_degenerate_trips_witness :
    (mkTrip [mkStop 1 2 8 0]).stop_times.length ≤ 1 ∧
    ((mkTrip [mkStop 1 2 8 0]).get_current_segment 480 = none ∧
      ((mkTrip [mkStop 1 2 8 0]).is_active_at 480 = true ↔
        (480 : Int) = ((mkTrip [mkStop 1 2 8 0]).get_start_time_minutes : Int))) :=
  ⟨by decide, c7_degenerate_trips (mkTrip [mkStop 1 2 8 0]) 480 (by decide)⟩

/-- Discrete intermediate-value property of the pair scan: when the list has
at least two stop times, the first one departs no later than `t` and the last
one no earlier than `t`, some consecutive pair brackets `t`, so the scan
succeeds. -/
theorem findSegment_isSome (t : Int) (a b : StopTime) (rest : List StopTime)
    (h1 : (a.to_minutes : Int) ≤ t)
    (h2 : t ≤ (((b :: rest).getLast (List.cons_ne_nil b rest)).to_minutes : Int)) :
    (findSegment t (a :: b :: rest)).isSome := by
  induction rest generalizing a b with
  | nil =>
    simp only [List.getLast_singleton] at h2
    simp [findSegment, h1, h2]
  | cons c rest' ih =>
    by_cases hb : t ≤ (b.to_minutes : Int)
    · simp [findSegment, h1, hb]
    · have h1' : (b.to_minutes : Int) ≤ t := le_of_not_le hb
      have h2' : t ≤ (((c :: rest').getLast (List.cons_ne_nil c rest')).to_minutes : Int) := by
        rwa [List.getLast_cons (List.cons_ne_nil c rest')] at h2
      have := ih b c h1' h2'
      simpa [findSegment, hb] using this

/-- Soundness of the pair scan: a returned pair is a consecutive pair of the
list, it brackets `t`, and it is the FIRST consecutive pair in list order
that does. -/
theorem findSegment_first (t : Int) :
    ∀ (l : List StopTime) (a b : StopTime), findSegment t l = some (a, b) →
    ∃ i, i + 1 < l.length ∧ l.getD i default = a ∧ l.getD (i + 1) default = b ∧
      (a.to_minutes : Int) ≤ t ∧ t ≤ (b.to_minutes : Int) ∧
      ∀ j, j < i →
        ¬(((l.getD j default).to_minutes : Int) ≤ t ∧
          t ≤ ((l.getD (j + 1) default).to_minutes : Int))
  | [], a, b => by simp [findSegment]
  | [x], a, b => by simp [findSegment]
  | x :: y :: rest, a, b => by
    intro hfs
    by_cases hc : ((x.to_minutes : Int) ≤ t) ∧ (t ≤ (y.to_minutes : Int))
    · rw [findSegment, if_pos hc] at hfs
      obtain ⟨rfl, rfl⟩ := Prod.ext_iff.mp (Option.some.inj hfs)
      refine ⟨0, by simp, rfl, rfl, hc.1, hc.2, by omega⟩
    · rw [findSegment, if_neg hc] at hfs
      obtain ⟨i, hlt, ha, hb, hat, hbt, hfirst⟩ := findSegment_first t (y :: rest) a b hfs
      refine ⟨i + 1, by simpa using hlt, ha, hb, hat, hbt, ?_⟩
      intro j hj
      match j with
      | 0 => simpa using hc
      | k + 1 => exact fun hpair => hfirst k (by omega) (by simpa using hpair)

/-- Claim C4: for a trip with at least two stop times and any `t` inside the
trip's span, `get_current_segment` returns the first consecutive pair of
stop times (in sequence order) that brackets `t`; such a pair always
exists. -/
theorem c4_current_segment (trip : Trip) (t : Int)
    (hlen : 2 ≤ trip.stop_times.length)
    (hs : (trip.get_start_time_minutes : Int) ≤ t)
    (he : t ≤ (trip.get_end_time_minutes : Int)) :
    ∃ i, i + 1 < trip.stop_times.length ∧
      trip.get_current_segment t =
        some (trip.stop_times.getD i default, trip.stop_times.getD (i + 1) default) ∧
      ((trip.stop_times.getD i default).to_minutes : Int) ≤ t ∧
      t ≤ ((trip.stop_times.getD (i + 1) default).to_minutes : Int) ∧
      ∀ j, j < i →
        ¬(((trip.stop_times.getD j default).to_minutes : Int) ≤ t ∧
          t ≤ ((trip.stop_times.getD (j + 1) default).to_minutes : Int)) := by
  rcases hst : trip.stop_times with _ | ⟨a, _ | ⟨b, rest⟩⟩
  · rw [hst] at hlen; simp at hlen
  · rw [hst] at hlen; simp at hlen
  · have hs' : (a.to_minutes : Int) ≤ t := by
      rw [Trip.get_start_time_minutes, hst] at hs
      exact hs
    have he' : t ≤ (((b :: rest).getLast (List.cons_ne_nil b rest)).to_minutes : Int) := by
      rw [Trip.get_end_time_minutes, hst] at he
      rwa [List.getLast?_eq_getLast _ (List.cons_ne_nil a (b :: rest)),
        List.getLast_cons (List.cons_ne_nil b rest)] at he
    have hactive : trip.is_active_at t = true := by
      rw [Trip.is_active_at]
      simp only [Bool.and_eq_true, decide_eq_true_eq]
      exact ⟨hs, he⟩
    have hsome := findSegment_isSome t a b rest hs' he'
    obtain ⟨⟨a', b'⟩, hab⟩ := Option.isSome_iff_exists.mp hsome
    obtain ⟨i, hlt, ha, hb, hat, hbt, hfirst⟩ := findSegment_first t (a :: b :: rest) a' b' hab
    refine ⟨i, hlt, ?_, ?_, ?_, ?_⟩
    · rw [Trip.get_current_segment, if_pos hactive, hst, hab, ha, hb]
    · rw [ha]; exact hat
    · rw [hb]; exact hbt
    · intro j hj
      exact hfirst j hj

/-- Witness for C4 at the spec's Scenario A trip (stops at minutes 480, 485,
490) queried at `t = 482`. -/
theorem c4_current_segment_witness :
    2 ≤ (mkTrip [mkStop 1 1 8 0, mkStop 2 2 8 5, mkStop 3 3 8 10]).stop_times.length ∧
    (((mkTrip [mkStop 1 1 8 0, mkStop 2 2 8 5, mkStop 3 3 8 10]).get_start_time_minutes : Int) ≤ 482) ∧
    ((482 : Int) ≤ ((mkTrip [mkStop 1 1 8 0, mkStop 2 2 8 5, mkStop 3 3 8 10]).get_end_time_minutes : Int)) ∧
    (∃ i, i + 1 < (mkTrip [mkStop 1 1 8 0, mkStop 2 2 8 5, mkStop 3 3 8 10]).stop_times.length ∧
      (mkTrip [mkStop 1 1 8 0, mkStop 2 2 8 5, mkStop 3 3 8 10]).get_current_segment 482 =
        some ((mkTrip [mkStop 1 1 8 0, mkStop 2 2 8 5, mkStop 3 3 8 10]).stop_times.getD i default,
          (mkTrip [mkStop 1 1 8 0, mkStop 2 2 8 5, mkStop 3 3 8 10]).stop_times.getD (i + 1) default) ∧
      (((mkTrip [mkStop 1 1 8 0, mkStop 2 2 8 5, mkStop 3 3 8 10]).stop_times.getD i default).to_minutes : Int) ≤ 482 ∧
      (482 : Int) ≤ (((mkTrip [mkStop 1 1 8 0, mkStop 2 2 8 5, mkStop 3 3 8 10]).stop_times.getD (i + 1) default).to_minutes : Int) ∧
      ∀ j, j < i →
        ¬((((mkTrip [mkStop 1 1 8 0, mkStop 2 2 8 5, mkStop 3 3 8 10]).stop_times.getD j default).to_minutes : Int) ≤ 482 ∧
          (482 : Int) ≤ (((mkTrip [mkStop 1 1 8 0, mkStop 2 2 8 5, mkStop 3 3 8 10]).stop_times.getD (j + 1) default).to_minutes : Int))) :=
  ⟨by decide, by decide, by decide,
    c4_current_segment (mkTrip [mkStop 1 1 8 0, mkStop 2 2 8 5, mkStop 3 3 8 10]) 482
      (by decide) (by decide) (by decide)⟩

/-- Claim C6: `interpolate_position` returns the start position unchanged
when the segment has zero duration; otherwise it linearly interpolates each
coordinate with progress clamped to `[0, 1]`, hitting exactly the start
coordinates at `t = startMinute` and exactly the end coordinates at
`t = endMinute`. -/
theorem c6_interpolate (start_pos end_pos : ℚ × ℚ) (sm em t : Int) :
    (em = sm → interpolate_position start_pos end_pos sm em t = start_pos) ∧
    (em ≠ sm →
      interpolate_position start_pos end_pos sm em t =
        (start_pos.1 + (end_pos.1 - start_pos.1) *
            max 0 (min 1 (((t : ℚ) - (sm : ℚ)) / ((em : ℚ) - (sm : ℚ)))),
         start_pos.2 + (end_pos.2 - start_pos.2) *
            max 0 (min 1 (((t : ℚ) - (sm : ℚ)) / ((em : ℚ) - (sm : ℚ))))) ∧
      interpolate_position start_pos end_pos sm em sm = start_pos ∧
      interpolate_position start_pos end_pos sm em em = end_pos) := by
  have hsub : em ≠ sm → ((em : ℚ) - (sm : ℚ)) ≠ 0 := by
    intro h
    exact sub_ne_zero.mpr (by exact_mod_cast h)
  constructor
  · intro h
    simp [interpolate_position, h]
  · intro h
    refine ⟨by simp [interpolate_position, h], ?_, ?_⟩
    · simp only [interpolate_position, if_neg h]
      norm_num
    · simp only [interpolate_position, if_neg h]
      rw [div_self (hsub h)]
      norm_num

/-- Witness for C6 at a concrete nondegenerate segment. -/
theorem c6_interpolate_witness :
    (10 : Int) ≠ 0 ∧
    interpolate_position ((0 : ℚ), (0 : ℚ)) ((10 : ℚ), (20 : ℚ)) 0 10 10 = (10, 20) :=
  ⟨by decide, ((c6_interpolate ((0 : ℚ), (0 : ℚ)) ((10 : ℚ), (20 : ℚ)) 0 10 10).2
    (by decide)).2.2⟩


/-- Claim C3: for a block with at least one trip whose trips all lie inside
the duty span `[firstTrip.start, lastTrip.end]` (the load-time chronological
ordering invariant of the Schedule Store), `get_status_at_time` is always
exactly one of the three states, and it is `IN_DEPOT` exactly when `t` falls
outside the duty span. -/
theorem c3_status (block : TramBlock) (first : Trip) (rest : List Trip) (t : Int)
    (hbt : block.trips = first :: rest)
    (hinv : ∀ tr ∈ block.trips,
      first.get_start_time_minutes ≤ tr.get_start_time_minutes ∧
      tr.get_end_time_minutes ≤
        ((first :: rest).getLast (List.cons_ne_nil first rest)).get_end_time_minutes) :
    (block.get_status_at_time t = "IN_TRANSIT" ∨
     block.get_status_at_time t = "AT_TERMINUS" ∨
     block.get_status_at_time t = "IN_DEPOT") ∧
    (block.get_status_at_time t = "IN_DEPOT" ↔
      (t < (first.get_start_time_minutes : Int) ∨
       (((first :: rest).getLast (List.cons_ne_nil first rest)).get_end_time_minutes : Int) < t)) := by
  cases hat : block.get_active_trip t with
  | some tr =>
    have hat' : block.trips.find? (fun trip => trip.is_active_at t) = some tr := hat
    have hmem : tr ∈ block.trips := List.mem_of_find?_eq_some hat'
    have hact0 := List.find?_some hat'
    have hact : tr.is_active_at t = true := hact0
    rw [Trip.is_active_at, Bool.and_eq_true, decide_eq_true_eq, decide_eq_true_eq] at hact
    obtain ⟨hlo, hhi⟩ := hinv tr hmem
    have hstatus : block.get_status_at_time t = "IN_TRANSIT" := by
      rw [TramBlock.get_status_at_time, hat]
    rw [hstatus]
    refine ⟨Or.inl rfl, ?_⟩
    constructor
    · intro h
      exact absurd h (by decide)
    · intro h
      exfalso
      rcases h with h | h <;> omega
  | none =>
    have hstatus : block.get_status_at_time t =
        if (first.get_start_time_minutes : Int) ≤ t ∧
            t ≤ (((first :: rest).getLast (List.cons_ne_nil first rest)).get_end_time_minutes : Int)
        then "AT_TERMINUS" else "IN_DEPOT" := by
      rw [TramBlock.get_status_at_time, hat, hbt]
    by_cases hc : (first.get_start_time_minutes : Int) ≤ t ∧
        t ≤ (((first :: rest).getLast (List.cons_ne_nil first rest)).get_end_time_minutes : Int)
    · rw [hstatus, if_pos hc]
      refine ⟨Or.inr (Or.inl rfl), ?_⟩
      constructor
      · intro h
        exact absurd h (by decide)
      · intro h
        exfalso
        rcases h with h | h <;> omega
    · rw [hstatus, if_neg hc]
      refine ⟨Or.inr (Or.inr rfl), ?_⟩
      simp only [true_iff]
      omega

/-- Witness for C3 at a two-trip block (trips spanning minutes 480–500 and
520–540) queried in the inter-trip gap at `t = 510`. -/
theorem c3_status_witness :
    (mkBlock [mkTrip [mkStop 1 1 8 0, mkStop 2 2 8 20],
        mkTrip [mkStop 2 2 8 40, mkStop 1 1 9 0]]).trips =
      mkTrip [mkStop 1 1 8 0, mkStop 2 2 8 20] :: [mkTrip [mkStop 2 2 8 40, mkStop 1 1 9 0]] ∧
    ((mkBlock [mkTrip [mkStop 1 1 8 0, mkStop 2 2 8 20],
        mkTrip [mkStop 2 2 8 40, mkStop 1 1 9 0]]).get_status_at_time 510 = "IN_TRANSIT" ∨
     (mkBlock [mkTrip [mkStop 1 1 8 0, mkStop 2 2 8 20],
        mkTrip [mkStop 2 2 8 40, mkStop 1 1 9 0]]).get_status_at_time 510 = "AT_TERMINUS" ∨
     (mkBlock [mkTrip [mkStop 1 1 8 0, mkStop 2 2 8 20],
        mkTrip [mkStop 2 2 8 40, mkStop 1 1 9 0]]).get_status_at_time 510 = "IN_DEPOT") ∧
    ((mkBlock [mkTrip [mkStop 1 1 8 0, mkStop 2 2 8 20],
        mkTrip [mkStop 2 2 8 40, mkStop 1 1 9 0]]).get_status_at_time 510 = "IN_DEPOT" ↔
      ((510 : Int) < ((mkTrip [mkStop 1 1 8 0, mkStop 2 2 8 20]).get_start_time_minutes : Int) ∨
       ((([mkTrip [mkStop 1 1 8 0, mkStop 2 2 8 20],
            mkTrip [mkStop 2 2 8 40, mkStop 1 1 9 0]] :
          List Trip).getLast (List.cons_ne_nil _ _)).get_end_time_minutes : Int) < 510)) :=
  ⟨rfl, (c3_status _ _ _ 510 rfl (by decide)).1, (c3_status _ _ _ 510 rfl (by decide)).2⟩


/-- The Python loop `for trip in trips: if cond(trip): last = trip` (starting
from `last = None`) keeps the LAST element satisfying the condition: it
equals the last element of the filtered list. -/
theorem scanLast_eq_filter_getLast {α : Type} (p : α → Prop) [DecidablePred p] (l : List α) :
    l.foldl (fun acc x => if p x then some x else acc) none =
      (l.filter (fun x => decide (p x))).getLast? := by
  induction l using List.reverseRecOn with
  | nil => rfl
  | append_singleton l x ih =>
    rw [List.foldl_append, List.filter_append]
    by_cases hx : p x
    · simp [hx, List.getLast?_concat]
    · simp [hx, ih]

/-- In a `Pairwise R` list, every element is either the last element or
related to it by `R`. -/
theorem pairwise_rel_getLast {α : Type} {R : α → α → Prop} :
    ∀ (l : List α) (y : α), l.Pairwise R → l.getLast? = some y →
      ∀ x ∈ l, x = y ∨ R x y
  | [], y, _, hy => by simp at hy
  | a :: rest, y, hp, hy => by
    intro x hx
    cases rest with
    | nil =>
      simp only [List.getLast?_singleton, Option.some.injEq] at hy
      subst hy
      simp only [List.mem_singleton] at hx
      exact Or.inl hx
    | cons b rest' =>
      rw [List.getLast?_cons_cons] at hy
      rw [List.pairwise_cons] at hp
      rcases List.mem_cons.mp hx with rfl | hx'
      · exact Or.inr (hp.1 y (List.mem_of_getLast?_eq_some hy))
      · exact pairwise_rel_getLast (b :: rest') y hp.2 hy x hx'

/-- Claim C5: under the Schedule Store invariants (trip end minutes
non-decreasing in stored order, every trip non-empty), `get_tram_position_at_time`
returns `none` when the status is `IN_DEPOT`; when the status is
`AT_TERMINUS` it returns `none` if no trip has ended by `t`, and otherwise
the coordinates of the last stop of the most recently completed trip — the
trip with the greatest `endMinute ≤ t`, which the code selects by scanning
all trips and keeping the latest qualifying one. -/
theorem c5_position (block : TramBlock) (t : Int)
    (hmono : block.trips.Pairwise
      (fun a b => a.get_end_time_minutes ≤ b.get_end_time_minutes))
    (hstops : ∀ tr ∈ block.trips, tr.stop_times ≠ []) :
    (block.get_status_at_time t = "IN_DEPOT" →
      get_tram_position_at_time block t = none) ∧
    (block.get_status_at_time t = "AT_TERMINUS" →
      ((∀ tr ∈ block.trips, ¬((tr.get_end_time_minutes : Int) ≤ t)) →
        get_tram_position_at_time block t = none) ∧
      (∀ tr0 ∈ block.trips, (tr0.get_end_time_minutes : Int) ≤ t →
        ∃ tr last_st, tr ∈ block.trips ∧ (tr.get_end_time_minutes : Int) ≤ t ∧
          (∀ tr2 ∈ block.trips, (tr2.get_end_time_minutes : Int) ≤ t →
            tr2.get_end_time_minutes ≤ tr.get_end_time_minutes) ∧
          tr.stop_times.getLast? = some last_st ∧
          get_tram_position_at_time block t =
            some (last_st.stop_lat, last_st.stop_lon))) := by
  constructor
  · intro hdep
    simp [get_tram_position_at_time, hdep]
  · intro hterm
    have hndep : block.get_status_at_time t ≠ "IN_DEPOT" := by
      rw [hterm]; decide
    have hnact : block.get_active_trip t = none := by
      cases hat : block.get_active_trip t with
      | none => rfl
      | some tr =>
        exfalso
        have : block.get_status_at_time t = "IN_TRANSIT" := by
          rw [TramBlock.get_status_at_time, hat]
        rw [hterm] at this
        exact absurd this (by decide)
    have hscan : block.trips.foldl
        (fun acc trip => if (trip.get_end_time_minutes : Int) ≤ t then some trip else acc)
        none = (block.trips.filter
          (fun trip => decide ((trip.get_end_time_minutes : Int) ≤ t))).getLast? := by
      exact scanLast_eq_filter_getLast
        (fun trip => (trip.get_end_time_minutes : Int) ≤ t) block.trips
    constructor
    · intro hnone
      have hfil : block.trips.filter
          (fun trip => decide ((trip.get_end_time_minutes : Int) ≤ t)) = [] := by
        rw [List.filter_eq_nil_iff]
        intro a ha
        simpa using hnone a ha
      rw [get_tram_position_at_time]
      simp only [if_neg hndep, hnact]
      rw [hscan, hfil]
      rfl
    · intro tr0 htr0 hq0
      have hfilne : block.trips.filter
          (fun trip => decide ((trip.get_end_time_minutes : Int) ≤ t)) ≠ [] := by
        intro hfil
        rw [List.filter_eq_nil_iff] at hfil
        exact absurd (by simpa using hq0) (by simpa using hfil tr0 htr0)
      obtain ⟨y, hy⟩ := Option.isSome_iff_exists.mp
        (List.getLast?_isSome.mpr hfilne)
      have hymem : y ∈ block.trips.filter
          (fun trip => decide ((trip.get_end_time_minutes : Int) ≤ t)) :=
        List.mem_of_getLast?_eq_some hy
      have hyq : (y.get_end_time_minutes : Int) ≤ t := by
        have := (List.mem_filter.mp hymem).2
        simpa using this
      have hymem' : y ∈ block.trips := (List.mem_filter.mp hymem).1
      have hymax : ∀ tr2 ∈ block.trips, (tr2.get_end_time_minutes : Int) ≤ t →
          tr2.get_end_time_minutes ≤ y.get_end_time_minutes := by
        intro tr2 h2 hq2
        have h2f : tr2 ∈ block.trips.filter
            (fun trip => decide ((trip.get_end_time_minutes : Int) ≤ t)) :=
          List.mem_filter.mpr ⟨h2, by simpa using hq2⟩
        have hpf : (block.trips.filter
            (fun trip => decide ((trip.get_end_time_minutes : Int) ≤ t))).Pairwise
            (fun a b => a.get_end_time_minutes ≤ b.get_end_time_minutes) :=
          hmono.sublist (List.filter_sublist _)
        rcases pairwise_rel_getLast _ y hpf hy tr2 h2f with rfl | hrel
        · exact le_refl _
        · exact hrel
      obtain ⟨last_st, hlast⟩ := Option.isSome_iff_exists.mp
        (List.getLast?_isSome.mpr (hstops y hymem'))
      refine ⟨y, last_st, hymem', hyq, hymax, hlast, ?_⟩
      rw [get_tram_position_at_time]
      simp only [if_neg hndep, hnact]
      simp only [hscan, hy, hlast]

/-- Witness for C5 at a two-trip block queried in the inter-trip gap at
`t = 510` (trip one has ended, trip two has not started). -/
theorem c5_position_witness :
    (mkBlock [mkTrip [mkStop 1 1 8 0, mkStop 2 2 8 20],
        mkTrip [mkStop 2 2 8 40, mkStop 1 1 9 0]]).trips.Pairwise
      (fun a b => a.get_end_time_minutes ≤ b.get_end_time_minutes) ∧
    (∀ tr ∈ (mkBlock [mkTrip [mkStop 1 1 8 0, mkStop 2 2 8 20],
        mkTrip [mkStop 2 2 8 40, mkStop 1 1 9 0]]).trips, tr.stop_times ≠ []) ∧
    ((mkBlock [mkTrip [mkStop 1 1 8 0, mkStop 2 2 8 20],
        mkTrip [mkStop 2 2 8 40, mkStop 1 1 9 0]]).get_status_at_time 510 = "AT_TERMINUS" →
      ((∀ tr ∈ (mkBlock [mkTrip [mkStop 1 1 8 0, mkStop 2 2 8 20],
          mkTrip [mkStop 2 2 8 40, mkStop 1 1 9 0]]).trips,
          ¬((tr.get_end_time_minutes : Int) ≤ 510)) →
        get_tram_position_at_time (mkBlock [mkTrip [mkStop 1 1 8 0, mkStop 2 2 8 20],
          mkTrip [mkStop 2 2 8 40, mkStop 1 1 9 0]]) 510 = none) ∧
      (∀ tr0 ∈ (mkBlock [mkTrip [mkStop 1 1 8 0, mkStop 2 2 8 20],
          mkTrip [mkStop 2 2 8 40, mkStop 1 1 9 0]]).trips,
          ((tr0.get_end_time_minutes : Int) ≤ 510) →
        ∃ tr last_st, tr ∈ (mkBlock [mkTrip [mkStop 1 1 8 0, mkStop 2 2 8 20],
            mkTrip [mkStop 2 2 8 40, mkStop 1 1 9 0]]).trips ∧
          (tr.get_end_time_minutes : Int) ≤ 510 ∧
          (∀ tr2 ∈ (mkBlock [mkTrip [mkStop 1 1 8 0, mkStop 2 2 8 20],
              mkTrip [mkStop 2 2 8 40, mkStop 1 1 9 0]]).trips,
              (tr2.get_end_time_minutes : Int) ≤ 510 →
            tr2.get_end_time_minutes ≤ tr.get_end_time_minutes) ∧
          tr.stop_times.getLast? = some last_st ∧
          get_tram_position_at_time (mkBlock [mkTrip [mkStop 1 1 8 0, mkStop 2 2 8 20],
            mkTrip [mkStop 2 2 8 40, mkStop 1 1 9 0]]) 510 =
              some (last_st.stop_lat, last_st.stop_lon))) :=
  ⟨by simp [List.pairwise_cons, mkBlock, mkTrip, mkStop, Trip.get_end_time_minutes,
      StopTime.to_minutes],
   by decide,
   (c5_position (mkBlock [mkTrip [mkStop 1 1 8 0, mkStop 2 2 8 20],
      mkTrip [mkStop 2 2 8 40, mkStop 1 1 9 0]]) 510
      (by simp [List.pairwise_cons, mkBlock, mkTrip, mkStop, Trip.get_end_time_minutes,
        StopTime.to_minutes])
      (by decide)).2⟩


/-- Peeling one step off the `min(range(n), key=f)` fold. -/
theorem argminFirst_succ (f : Nat → ℚ) (n : Nat) :
    argminFirst f (n + 1) =
      if f n < f (argminFirst f n) then n else argminFirst f n := by
  rw [argminFirst, List.range_succ, List.foldl_append]
  rfl

/-- Specification of `min(range(n), key=f)`: the result is an index below
`n`, its key is minimal, and any index with an equal key is not smaller
(first-wins tie-breaking). -/
theorem argminFirst_spec (f : Nat → ℚ) :
    ∀ n, 0 < n → argminFirst f n < n ∧
      ∀ j, j < n → f (argminFirst f n) ≤ f j ∧
        (f j = f (argminFirst f n) → argminFirst f n ≤ j) := by
  intro n
  induction n with
  | zero => omega
  | succ n ih =>
    intro _
    rcases Nat.eq_zero_or_pos n with rfl | hn
    · have h1 : argminFirst f 1 = 0 := by
        rw [argminFirst_succ]
        simp [argminFirst]
      rw [h1]
      refine ⟨by omega, ?_⟩
      intro j hj
      have : j = 0 := by omega
      subst this
      exact ⟨le_refl _, fun _ => le_refl _⟩
    · obtain ⟨hlt, hmin⟩ := ih hn
      rw [argminFirst_succ]
      by_cases hc : f n < f (argminFirst f n)
      · rw [if_pos hc]
        refine ⟨by omega, ?_⟩
        intro j hj
        rcases Nat.lt_succ_iff_lt_or_eq.mp hj with hjn | rfl
        · refine ⟨le_of_lt (lt_of_lt_of_le hc (hmin j hjn).1), ?_⟩
          intro he
          exfalso
          have hge := (hmin j hjn).1
          rw [he] at hge
          exact absurd hc (not_lt.mpr hge)
        · exact ⟨le_refl _, fun _ => le_refl _⟩
      · rw [if_neg hc]
        refine ⟨by omega, ?_⟩
        intro j hj
        rcases Nat.lt_succ_iff_lt_or_eq.mp hj with hjn | rfl
        · exact hmin j hjn
        · exact ⟨le_of_not_lt hc, fun _ => le_of_lt hlt⟩

/-- The squared distance is nonnegative. -/
theorem distSq_nonneg (p q : ℚ × ℚ) : 0 ≤ distSq p q := by
  rw [distSq]
  positivity

/-- Claim C10: the nearest-vertex index used by `route_segment_coords` (the
same function `nearestIdx` is applied to the start and to the end query
point) is a valid index whose vertex attains the minimal distance to the
query point, and among all vertices attaining that minimum it is the
SMALLEST index — ties break toward the earlier vertex.  Stated both for the
squared-distance comparison key the code's `min` effectively uses and for
the Euclidean (square-root) distance of `math.dist` itself. -/
theorem c10_nearest_index (p : ℚ × ℚ) (route : List (ℚ × ℚ)) (hne : route ≠ []) :
    nearestIdx p route < route.length ∧
    (∀ j, j < route.length →
      distSq p (route.getD (nearestIdx p route) (0, 0)) ≤ distSq p (route.getD j (0, 0)) ∧
      (distSq p (route.getD j (0, 0)) = distSq p (route.getD (nearestIdx p route) (0, 0)) →
        nearestIdx p route ≤ j)) ∧
    (∀ j, j < route.length →
      Real.sqrt ((distSq p (route.getD (nearestIdx p route) (0, 0)) : ℚ) : ℝ) ≤
        Real.sqrt ((distSq p (route.getD j (0, 0)) : ℚ) : ℝ) ∧
      (Real.sqrt ((distSq p (route.getD j (0, 0)) : ℚ) : ℝ) =
          Real.sqrt ((distSq p (route.getD (nearestIdx p route) (0, 0)) : ℚ) : ℝ) →
        nearestIdx p route ≤ j)) := by
  have hpos : 0 < route.length := List.length_pos.mpr hne
  obtain ⟨hlt, hmin⟩ :=
    argminFirst_spec (fun i => distSq p (route.getD i (0, 0))) route.length hpos
  refine ⟨hlt, fun j hj => hmin j hj, ?_⟩
  intro j hj
  obtain ⟨hle, hfirst⟩ := hmin j hj
  constructor
  · exact Real.sqrt_le_sqrt (by exact_mod_cast hle)
  · intro hsq
    apply hfirst
    have h1 : (0 : ℝ) ≤ ((distSq p (route.getD j (0, 0)) : ℚ) : ℝ) := by
      exact_mod_cast distSq_nonneg p (route.getD j (0, 0))
    have h2 : (0 : ℝ) ≤ ((distSq p (route.getD (nearestIdx p route) (0, 0)) : ℚ) : ℝ) := by
      exact_mod_cast distSq_nonneg p (route.getD (nearestIdx p route) (0, 0))
    have := (Real.sqrt_inj h1 h2).mp hsq
    exact_mod_cast this

/-- Witness for C10 on a route with duplicated nearest vertices: the query
point `(3, 0)` is equidistant from indices 1 and 2, and the earlier index
wins. -/
theorem c10_nearest_index_witness :
    ([((0 : ℚ), (0 : ℚ)), (3, 0), (3, 0)] : List (ℚ × ℚ)) ≠ [] ∧
    (nearestIdx (3, 0) [((0 : ℚ), (0 : ℚ)), (3, 0), (3, 0)] <
      ([((0 : ℚ), (0 : ℚ)), (3, 0), (3, 0)] : List (ℚ × ℚ)).length ∧
    (∀ j, j < ([((0 : ℚ), (0 : ℚ)), (3, 0), (3, 0)] : List (ℚ × ℚ)).length →
      distSq (3, 0) ([((0 : ℚ), (0 : ℚ)), (3, 0), (3, 0)].getD
          (nearestIdx (3, 0) [((0 : ℚ), (0 : ℚ)), (3, 0), (3, 0)]) (0, 0)) ≤
        distSq (3, 0) ([((0 : ℚ), (0 : ℚ)), (3, 0), (3, 0)].getD j (0, 0)) ∧
      (distSq (3, 0) ([((0 : ℚ), (0 : ℚ)), (3, 0), (3, 0)].getD j (0, 0)) =
          distSq (3, 0) ([((0 : ℚ), (0 : ℚ)), (3, 0), (3, 0)].getD
            (nearestIdx (3, 0) [((0 : ℚ), (0 : ℚ)), (3, 0), (3, 0)]) (0, 0)) →
        nearestIdx (3, 0) [((0 : ℚ), (0 : ℚ)), (3, 0), (3, 0)] ≤ j)) ∧
    (∀ j, j < ([((0 : ℚ), (0 : ℚ)), (3, 0), (3, 0)] : List (ℚ × ℚ)).length →
      Real.sqrt ((distSq (3, 0) ([((0 : ℚ), (0 : ℚ)), (3, 0), (3, 0)].getD
          (nearestIdx (3, 0) [((0 : ℚ), (0 : ℚ)), (3, 0), (3, 0)]) (0, 0)) : ℚ) : ℝ) ≤
        Real.sqrt ((distSq (3, 0) ([((0 : ℚ), (0 : ℚ)), (3, 0), (3, 0)].getD j (0, 0)) : ℚ) : ℝ) ∧
      (Real.sqrt ((distSq (3, 0) ([((0 : ℚ), (0 : ℚ)), (3, 0), (3, 0)].getD j (0, 0)) : ℚ) : ℝ) =
          Real.sqrt ((distSq (3, 0) ([((0 : ℚ), (0 : ℚ)), (3, 0), (3, 0)].getD
            (nearestIdx (3, 0) [((0 : ℚ), (0 : ℚ)), (3, 0), (3, 0)]) (0, 0)) : ℚ) : ℝ) →
        nearestIdx (3, 0) [((0 : ℚ), (0 : ℚ)), (3, 0), (3, 0)] ≤ j))) :=
  ⟨List.cons_ne_nil _ _,
   c10_nearest_index (3, 0) [((0 : ℚ), (0 : ℚ)), (3, 0), (3, 0)] (List.cons_ne_nil _ _)⟩

/-- A forward slice, written as `drop`/`take`, lists the elements at the
index range `s, s+1, …, s+n-1`. -/
theorem drop_take_eq_map_range {α : Type} (l : List α) (d : α) (s n : Nat)
    (h : s + n ≤ l.length) :
    (l.drop s).take n = (List.range' s n).map (fun i => l.getD i d) := by
  apply List.ext_getElem
  · simp only [List.length_take, List.length_drop, List.length_map, List.length_range']
    omega
  · intro i h1 h2
    simp only [List.getElem_take, List.getElem_drop, List.getElem_map,
      List.getElem_range', one_mul]
    rw [List.getD_eq_getElem l d (by simp at h1 ⊢; omega)]


/-- The reverse slice `l[s : e - 1 : -1]` for `1 ≤ e < s` lists the elements
at indices `s, s - 1, …, e` — the endpoint index `e` INCLUDED. -/
theorem pyRevSlice_pos {α : Type} (l : List α) (d : α) (s e : Nat)
    (h1 : 1 ≤ e) (hlt : e < s) :
    pyRevSlice l d s ((e : Int) - 1) =
      ((List.range' e (s + 1 - e)).reverse).map (fun i => l.getD i d) := by
  have hn : ¬((e : Int) - 1 < 0) := by omega
  simp only [pyRevSlice, if_neg hn]
  rw [if_pos (by omega : (e : Int) - 1 < (s : Int))]
  have h2 : ((e : Int) - 1 + 1).toNat = e := by omega
  have h3 : ((s : Int) - ((e : Int) - 1)).toNat = s + 1 - e := by omega
  rw [h2, h3]

/-- The reverse slice `l[s : e - 1 : -1]` for `e = 0 < s`: the stop index
`-1` wraps to the last index of the list, so the slice is EMPTY. -/
theorem pyRevSlice_zero {α : Type} (l : List α) (d : α) (s : Nat)
    (hs : s < l.length) :
    pyRevSlice l d s (((0 : Nat) : Int) - 1) = [] := by
  have hn : (((0 : Nat) : Int) - 1 < 0) := by omega
  have hn2 : ¬(((0 : Nat) : Int) - 1 + (l.length : Int) < 0) := by omega
  simp only [pyRevSlice, if_pos hn, if_neg hn2]
  rw [if_neg (by omega : ¬(((0 : Nat) : Int) - 1 + (l.length : Int) < (s : Int)))]

/-- Claim C2 (amended): with `s`/`e` the nearest-vertex indices of the start
and end query points, the forward case `s ≤ e` returns the vertices at
indices `s..e` inclusive in forward order; the reverse case `e < s` returns
the vertices at indices `s, s-1, …, e` in reverse order with the endpoint
index `e` INCLUDED whenever `e ≥ 1`, and returns the empty list when
`e = 0` (CPython's `l[s:-1:-1]` wraparound). -/
theorem c2_route_segment (s_start s_end : ℚ × ℚ) (route : List (ℚ × ℚ))
    (hne : route ≠ []) :
    (nearestIdx s_start route ≤ nearestIdx s_end route →
      route_segment_coords s_start s_end route =
        some ((List.range' (nearestIdx s_start route)
          (nearestIdx s_end route + 1 - nearestIdx s_start route)).map
            (fun i => route.getD i (0, 0)))) ∧
    (nearestIdx s_end route < nearestIdx s_start route →
      1 ≤ nearestIdx s_end route →
      route_segment_coords s_start s_end route =
        some (((List.range' (nearestIdx s_end route)
          (nearestIdx s_start route + 1 - nearestIdx s_end route)).reverse).map
            (fun i => route.getD i (0, 0)))) ∧
    (nearestIdx s_end route < nearestIdx s_start route →
      nearestIdx s_end route = 0 →
      route_segment_coords s_start s_end route = some []) := by
  have hpos : 0 < route.length := List.length_pos.mpr hne
  have hslt : nearestIdx s_start route < route.length :=
    (argminFirst_spec (fun i => distSq s_start (route.getD i (0, 0)))
      route.length hpos).1
  have helt : nearestIdx s_end route < route.length :=
    (argminFirst_spec (fun i => distSq s_end (route.getD i (0, 0)))
      route.length hpos).1
  rcases route with _ | ⟨x, xs⟩
  · exact absurd rfl hne
  · refine ⟨?_, ?_, ?_⟩
    · intro hle
      simp only [route_segment_coords]
      rw [if_pos hle]
      exact congrArg some (drop_take_eq_map_range (x :: xs) (0, 0) _ _ (by omega))
    · intro hgt h1
      simp only [route_segment_coords]
      rw [if_neg (by omega)]
      exact congrArg some (pyRevSlice_pos (x :: xs) (0, 0) _ _ h1 hgt)
    · intro hgt h0
      simp only [route_segment_coords]
      rw [if_neg (by omega), h0]
      exact congrArg some (pyRevSlice_zero (x :: xs) (0, 0) _ hslt)

/-- Claim C2 (counterexample): on the 10-point polyline of the spec's
Scenario C, the start point is nearest to index 5 and the end point to
index 2, and the code returns the vertices at indices `[5, 4, 3, 2]` — the
endpoint IS included — not `[5, 4, 3]` as the claim states. -/
theorem c2_counterexample :
    nearestIdx ((5 : ℚ), (0 : ℚ))
      [((0 : ℚ), (0 : ℚ)), (1, 0), (2, 0), (3, 0), (4, 0), (5, 0), (6, 0), (7, 0), (8, 0), (9, 0)] = 5 ∧
    nearestIdx ((2 : ℚ), (0 : ℚ))
      [((0 : ℚ), (0 : ℚ)), (1, 0), (2, 0), (3, 0), (4, 0), (5, 0), (6, 0), (7, 0), (8, 0), (9, 0)] = 2 ∧
    route_segment_coords ((5 : ℚ), (0 : ℚ)) ((2 : ℚ), (0 : ℚ))
      [((0 : ℚ), (0 : ℚ)), (1, 0), (2, 0), (3, 0), (4, 0), (5, 0), (6, 0), (7, 0), (8, 0), (9, 0)] =
        some [(5, 0), (4, 0), (3, 0), (2, 0)] ∧
    route_segment_coords ((5 : ℚ), (0 : ℚ)) ((2 : ℚ), (0 : ℚ))
      [((0 : ℚ), (0 : ℚ)), (1, 0), (2, 0), (3, 0), (4, 0), (5, 0), (6, 0), (7, 0), (8, 0), (9, 0)] ≠
        some [(5, 0), (4, 0), (3, 0)] := by
  have heval : route_segment_coords ((5 : ℚ), (0 : ℚ)) ((2 : ℚ), (0 : ℚ))
      [((0 : ℚ), (0 : ℚ)), (1, 0), (2, 0), (3, 0), (4, 0), (5, 0), (6, 0), (7, 0), (8, 0), (9, 0)] =
        some [(5, 0), (4, 0), (3, 0), (2, 0)] := by
    norm_num [route_segment_coords, nearestIdx, argminFirst, distSq, List.range_succ,
      pyRevSlice, List.range']
    simp
  refine ⟨?_, ?_, heval, ?_⟩
  · norm_num [nearestIdx, argminFirst, distSq, List.range_succ]
  · norm_num [nearestIdx, argminFirst, distSq, List.range_succ]
  · rw [heval]
    simp

/-- Witness for C2's amended theorem on a 3-point route whose query points
sit exactly on vertices 2 and 1 (the reverse, endpoint-included case). -/
theorem c2_route_segment_witness :
    ([((0 : ℚ), (0 : ℚ)), (1, 0), (2, 0)] : List (ℚ × ℚ)) ≠ [] ∧
    ((nearestIdx ((2 : ℚ), (0 : ℚ)) [((0 : ℚ), (0 : ℚ)), (1, 0), (2, 0)] ≤
        nearestIdx ((1 : ℚ), (0 : ℚ)) [((0 : ℚ), (0 : ℚ)), (1, 0), (2, 0)] →
      route_segment_coords ((2 : ℚ), (0 : ℚ)) ((1 : ℚ), (0 : ℚ))
          [((0 : ℚ), (0 : ℚ)), (1, 0), (2, 0)] =
        some ((List.range' (nearestIdx ((2 : ℚ), (0 : ℚ)) [((0 : ℚ), (0 : ℚ)), (1, 0), (2, 0)])
          (nearestIdx ((1 : ℚ), (0 : ℚ)) [((0 : ℚ), (0 : ℚ)), (1, 0), (2, 0)] + 1 -
            nearestIdx ((2 : ℚ), (0 : ℚ)) [((0 : ℚ), (0 : ℚ)), (1, 0), (2, 0)])).map
            (fun i => ([((0 : ℚ), (0 : ℚ)), (1, 0), (2, 0)] : List (ℚ × ℚ)).getD i (0, 0)))) ∧
    (nearestIdx ((1 : ℚ), (0 : ℚ)) [((0 : ℚ), (0 : ℚ)), (1, 0), (2, 0)] <
        nearestIdx ((2 : ℚ), (0 : ℚ)) [((0 : ℚ), (0 : ℚ)), (1, 0), (2, 0)] →
      1 ≤ nearestIdx ((1 : ℚ), (0 : ℚ)) [((0 : ℚ), (0 : ℚ)), (1, 0), (2, 0)] →
      route_segment_coords ((2 : ℚ), (0 : ℚ)) ((1 : ℚ), (0 : ℚ))
          [((0 : ℚ), (0 : ℚ)), (1, 0), (2, 0)] =
        some (((List.range' (nearestIdx ((1 : ℚ), (0 : ℚ)) [((0 : ℚ), (0 : ℚ)), (1, 0), (2, 0)])
          (nearestIdx ((2 : ℚ), (0 : ℚ)) [((0 : ℚ), (0 : ℚ)), (1, 0), (2, 0)] + 1 -
            nearestIdx ((1 : ℚ), (0 : ℚ)) [((0 : ℚ), (0 : ℚ)), (1, 0), (2, 0)])).reverse).map
            (fun i => ([((0 : ℚ), (0 : ℚ)), (1, 0), (2, 0)] : List (ℚ × ℚ)).getD i (0, 0)))) ∧
    (nearestIdx ((1 : ℚ), (0 : ℚ)) [((0 : ℚ), (0 : ℚ)), (1, 0), (2, 0)] <
        nearestIdx ((2 : ℚ), (0 : ℚ)) [((0 : ℚ), (0 : ℚ)), (1, 0), (2, 0)] →
      nearestIdx ((1 : ℚ), (0 : ℚ)) [((0 : ℚ), (0 : ℚ)), (1, 0), (2, 0)] = 0 →
      route_segment_coords ((2 : ℚ), (0 : ℚ)) ((1 : ℚ), (0 : ℚ))
          [((0 : ℚ), (0 : ℚ)), (1, 0), (2, 0)] = some [])) :=
  ⟨List.cons_ne_nil _ _,
   c2_route_segment ((2 : ℚ), (0 : ℚ)) ((1 : ℚ), (0 : ℚ))
     [((0 : ℚ), (0 : ℚ)), (1, 0), (2, 0)] (List.cons_ne_nil _ _)⟩

end TramSim
